import Mathlib

/-!
Verification development for a small OpenFlow (Ryu) controller consisting of
four applications: an L2 learning switch, a static firewall, a VIP
load balancer with proxy ARP, and a telemetry collector.

Python dictionaries are modelled as association lists whose update operation
overwrites the (unique) entry for a key; floats used for timestamps and rates
are modelled by rationals; machine-level details (serialization, sockets) are
out of scope.  Each definition mirrors one function of the source files
ryu_app_learning_switch.py, ryu_app_load_balancer.py, ryu_app_firewall.py and
ryu_app_telemetry.py.
-/

/-- Model of Python `s.startswith(p)`: character-list prefix test.  (Lean's
own `String.startsWith` is defined by well-founded recursion and does not
reduce inside the kernel, so the model uses the character list directly.) -/
def pyStartsWith (s p : String) : Bool :=
  decide (s.data.take p.data.length = p.data)

/-- Lookup in an association list: model of Python `d[k]` / `d.get(k)`. -/
def dictGet {α β : Type} [DecidableEq α] (k : α) : List (α × β) → Option β
  | [] => none
  | (k', v) :: rest => if k' = k then some v else dictGet k rest

/-- Assignment in an association list: model of Python `d[k] = v`
(overwrites the entry for `k`, appends if absent). -/
def dictInsert {α β : Type} [DecidableEq α] (k : α) (v : β) :
    List (α × β) → List (α × β)
  | [] => [(k, v)]
  | (k', v') :: rest =>
    if k' = k then (k, v) :: rest else (k', v') :: dictInsert k v rest

/-- Removal from an association list: model of Python `d.pop(k, None)`.
On lists with unique keys (the only ones a Python dict can denote) this
removes exactly the entry for `k`. -/
def dictPop {α β : Type} [DecidableEq α] (k : α) (l : List (α × β)) :
    List (α × β) :=
  l.filter (fun e => !decide (e.1 = k))

/-- Number of entries stored under key `k`. -/
def keyCount {α β : Type} [DecidableEq α] (k : α) (l : List (α × β)) : Nat :=
  (l.filter (fun e => decide (e.1 = k))).length

/-- Well-formedness of an association list as a dictionary: unique keys. -/
def keysNodup {α β : Type} (l : List (α × β)) : Prop :=
  (l.map Prod.fst).Nodup

instance {α β : Type} [DecidableEq α] (l : List (α × β)) :
    Decidable (keysNodup l) := by
  unfold keysNodup; infer_instance


/-! Protocol constants, with the numeric values of OpenFlow 1.3 as exposed by
the ryu library (`ryu.ofproto.ofproto_v1_3` and `ryu.lib.packet`). -/

def OFPP_MAX : Nat := 0xffffff00
def OFPP_NORMAL : Nat := 0xfffffffa
def OFPP_FLOOD : Nat := 0xfffffffb
def OFPP_CONTROLLER : Nat := 0xfffffffd
def OFP_NO_BUFFER : Nat := 0xffffffff
def ETH_TYPE_IP : Nat := 0x0800
def ETH_TYPE_ARP : Nat := 0x0806
def ETH_TYPE_LLDP : Nat := 0x88cc
def ARP_REQUEST : Nat := 1
def ARP_REPLY : Nat := 2

/-- An OpenFlow action, as produced by the applications (`OFPActionSetField`
with one field, or `OFPActionOutput`). -/
inductive OFAction where
  | setIpv4Dst (ip : String)
  | setIpv4Src (ip : String)
  | setEthDst (mac : String)
  | setEthSrc (mac : String)
  | output (port : Nat)
deriving DecidableEq

/-! ## Learning switch (ryu_app_learning_switch.py)

State `self.mac_to_port : dpid -> (MAC -> port)`. -/

abbrev PortTable := List (String × Nat)
abbrev MacToPort := List (Nat × PortTable)

/-- The parsed Ethernet header of a packet-in event. -/
structure EthHeader where
  src : String
  dst : String
  ethertype : Nat
deriving DecidableEq

/-- A flow mod issued by `LearningSwitch13.add_flow`: the actions sit in one
APPLY_ACTIONS instruction; a buffer id is attached only when the event carried
a real buffer (`buffer_id != OFP_NO_BUFFER`). -/
structure LSFlowMod where
  priority : Nat
  eth_dst : String
  actions : List OFAction
  buffer : Option Nat
deriving DecidableEq

/-- A packet-out message sent by the learning switch (flood of the received
payload). -/
structure LSPacketOut where
  in_port : Nat
  actions : List OFAction
deriving DecidableEq

/-- The forwarding decision of one `_packet_in_handler` invocation: the chosen
output port, the optional installed flow rule and the optional packet-out. -/
structure LSDecision where
  out_port : Nat
  flowMod : Option LSFlowMod
  pktOut : Option LSPacketOut
deriving DecidableEq

/-- Model of `LearningSwitch13.add_flow`. -/
def ls_add_flow (priority : Nat) (eth_dst : String) (actions : List OFAction)
    (buffer_id : Option Nat) : LSFlowMod :=
  { priority := priority, eth_dst := eth_dst, actions := actions,
    buffer := match buffer_id with
      | some b => if b ≠ OFP_NO_BUFFER then some b else none
      | none => none }

/-- The per-switch table with the source of the current packet learned, i.e.
`mac_to_port.setdefault(dpid, {})` followed by
`mac_to_port[dpid][src] = in_port`. -/
def lsLearnedTable (t : MacToPort) (dpid inPort : Nat) (eth : EthHeader) :
    PortTable :=
  dictInsert eth.src inPort ((dictGet dpid t).getD [])

/-- The per-switch port table recorded for `dpid` (empty when the switch has
no entry yet). -/
def innerOf (t : MacToPort) (dpid : Nat) : PortTable :=
  (dictGet dpid t).getD []

/-- Model of `LearningSwitch13._packet_in_handler`: returns the updated MAC
table and the decision (`none` when the frame is ignored: LLDP ethertype or
an IPv6-multicast destination starting with `33:33:`). -/
def ls_packet_in (t : MacToPort) (dpid inPort buffer_id : Nat)
    (eth : EthHeader) : MacToPort × Option LSDecision :=
  if eth.ethertype = ETH_TYPE_LLDP ∨ pyStartsWith eth.dst "33:33:" = true then
    (t, none)
  else
    let inner := lsLearnedTable t dpid inPort eth
    let t1 := dictInsert dpid inner t
    let out_port := (dictGet eth.dst inner).getD OFPP_FLOOD
    if out_port ≠ OFPP_FLOOD then
      (t1, some { out_port := out_port,
                  flowMod := some (ls_add_flow 1 eth.dst [.output out_port]
                    (some buffer_id)),
                  pktOut := none })
    else
      (t1, some { out_port := out_port, flowMod := none,
                  pktOut := some ⟨inPort, [.output out_port]⟩ })

/-- Well-formed MAC table: outer and inner association lists have unique keys
(true of every table reachable from the initial empty dictionary). -/
def MacWF (t : MacToPort) : Prop :=
  keysNodup t ∧ ∀ e ∈ t, keysNodup e.2

instance (t : MacToPort) : Decidable (MacWF t) := by
  unfold MacWF; infer_instance

/-! ## Load balancer (ryu_app_load_balancer.py)

Class constants of `SimpleLoadBalancer`; the first backend IP carries the
typo present in the source (`'10.0ping1.1'`). -/

def VIP_IP : String := "10.0.1.100"
def VIP_MAC : String := "00:aa:bb:cc:dd:ee"

/-- One entry of `SERVER_POOL`: backend IP and optionally resolved MAC. -/
structure Server where
  ip : String
  mac : Option String
deriving DecidableEq

def initServerPool : List Server :=
  [{ ip := "10.0ping1.1", mac := none }, { ip := "10.0.1.2", mac := none }]

/-- Parsed IPv4 header fields used by the load balancer. -/
structure IPv4Header where
  src : String
  dst : String
deriving DecidableEq

/-- Parsed ARP payload fields used by the load balancer. -/
structure ArpHeader where
  opcode : Nat
  src_mac : String
  src_ip : String
  dst_ip : String
deriving DecidableEq

/-- A packet as seen by `SimpleLoadBalancer.packet_in`: Ethernet source plus
the optional IPv4 and ARP protocols extracted by `pkt.get_protocol`. -/
structure InPacket where
  eth_src : String
  ipv4 : Option IPv4Header
  arp : Option ArpHeader
deriving DecidableEq

/-- An OpenFlow match as built by `parser.OFPMatch(...)` keyword arguments
used in this application. -/
structure OFMatch where
  eth_type : Option Nat := none
  ipv4_src : Option String := none
  ipv4_dst : Option String := none
deriving DecidableEq

/-- A flow mod issued by `SimpleLoadBalancer._add_flow`: the actions sit in
one APPLY_ACTIONS instruction. -/
structure LBFlowMod where
  priority : Nat
  flowMatch : OFMatch
  actions : List OFAction
  idle_timeout : Nat
  hard_timeout : Nat
deriving DecidableEq

/-- The payload of a packet-out message: either the original `msg.data`
re-emitted, or the ARP reply crafted by the VIP proxy (Ethernet
`src = VIP_MAC`, ARP reply `src = VIP_MAC/VIP_IP`, directed at the recorded
requester). -/
inductive PktData where
  | original
  | arpReply (requester_mac : String) (requester_ip : String)
deriving DecidableEq

/-- A packet-out message sent by the load balancer. -/
structure LBPacketOut where
  in_port : Nat
  actions : List OFAction
  data : PktData
deriving DecidableEq

/-- Everything one `packet_in` invocation emits: the pool index used by
`_choose_server` (when the VIP branch ran), the installed flow rules and the
packet-out messages, in order. -/
structure LBOut where
  chosen : Option Nat := none
  flowMods : List LBFlowMod := []
  pktOuts : List LBPacketOut := []
deriving DecidableEq

/-- Mutable state of `SimpleLoadBalancer`: the rotation pointer, the passive
IP-to-MAC cache, and the server pool (whose entries cache resolved MACs). -/
structure LBState where
  rr_index : Nat
  ip2mac : List (String × String)
  pool : List Server
deriving DecidableEq

/-- State installed by `SimpleLoadBalancer.__init__`. -/
def initLBState : LBState :=
  { rr_index := 0, ip2mac := [], pool := initServerPool }

/-- Model of `_choose_server`: read `SERVER_POOL[rr_index]`, then advance the
pointer modulo the pool size.  An out-of-range pointer raises IndexError in
Python; that case is modelled as `none` and is unreachable under the
`rr_index < pool.length` invariant. -/
def lbChooseServer (s : LBState) : Option (Nat × Server) × LBState :=
  match s.pool.get? s.rr_index with
  | some srv =>
    (some (s.rr_index, srv),
     { s with rr_index := (s.rr_index + 1) % s.pool.length })
  | none => (none, s)

/-- The passive learning step at the top of `packet_in`:
`if ip4 and eth.src: self.ip2mac[ip4.src] = eth.src`. -/
def lbLearnIp (s : LBState) (pkt : InPacket) : LBState :=
  match pkt.ipv4 with
  | some ip4 =>
    if pkt.eth_src ≠ "" then
      { s with ip2mac := dictInsert ip4.src pkt.eth_src s.ip2mac }
    else s
  | none => s

/-- Backend MAC resolution: the cached value in the pool entry, else the
passive `ip2mac` cache (`if not server['mac']: server['mac'] =
self.ip2mac.get(server['ip'])`). -/
def lbResolvedMac (cache : List (String × String)) (srv : Server) :
    Option String :=
  match srv.mac with
  | some m => some m
  | none => dictGet srv.ip cache

/-- The server pool after `server['mac'] = self.ip2mac.get(server['ip'])`:
when the chosen entry had no cached MAC, the resolution result is written
back into the pool (Python mutates the shared dict in place). -/
def lbPoolWriteBack (s1 : LBState) (idx : Nat) (srv : Server)
    (mac0 : Option String) : LBState :=
  match srv.mac with
  | some _ => s1
  | none => { s1 with pool := s1.pool.set idx { srv with mac := mac0 } }

/-- The NAT tail of the VIP branch, after `_choose_server` returned the
entry `srv` at pool index `idx` and advanced the state to `s1`:
resolve the backend MAC; if unknown, flood the packet and stop; otherwise
install the forward and reverse rules and re-emit the rewritten packet. -/
def lbVipNat (s1 : LBState) (inPort idx : Nat) (srv : Server)
    (clientIp : String) : LBState × LBOut :=
  let mac0 := lbResolvedMac s1.ip2mac srv
  let s2 := lbPoolWriteBack s1 idx srv mac0
  match mac0 with
  | none =>
    (s2, { chosen := some idx,
           pktOuts := [⟨inPort, [.output OFPP_FLOOD], .original⟩] })
  | some smac =>
    (s2,
     { chosen := some idx,
       flowMods :=
         [{ priority := 10,
            flowMatch := { eth_type := some ETH_TYPE_IP,
                           ipv4_dst := some VIP_IP },
            actions := [.setIpv4Dst srv.ip, .setEthDst smac,
                        .output OFPP_NORMAL],
            idle_timeout := 30, hard_timeout := 0 },
          { priority := 10,
            flowMatch := { eth_type := some ETH_TYPE_IP,
                           ipv4_src := some srv.ip,
                           ipv4_dst := some clientIp },
            actions := [.setIpv4Src VIP_IP, .setEthSrc VIP_MAC,
                        .output inPort],
            idle_timeout := 30, hard_timeout := 0 }],
       pktOuts := [⟨inPort, [.setIpv4Dst srv.ip, .setEthDst smac,
                             .output OFPP_FLOOD], .original⟩] })

/-- The VIP interception tail of `packet_in` (`if ip4 and ip4.dst ==
self.VIP_IP: ...`). -/
def lbVipPhase (s : LBState) (inPort : Nat) (pkt : InPacket) :
    LBState × LBOut :=
  match pkt.ipv4 with
  | none => (s, {})
  | some ip4 =>
    if ip4.dst = VIP_IP then
      match lbChooseServer s with
      | (none, s1) => (s1, {})
      | (some (idx, srv), s1) => lbVipNat s1 inPort idx srv ip4.src
    else (s, {})

/-- Model of `SimpleLoadBalancer.packet_in`: passive IP learning, ARP caching
and VIP proxy-ARP, then VIP interception. -/
def lb_packet_in (s : LBState) (inPort : Nat) (pkt : InPacket) :
    LBState × LBOut :=
  let s1 := lbLearnIp s pkt
  match pkt.arp with
  | some a =>
    let s2 := { s1 with ip2mac := dictInsert a.src_ip a.src_mac s1.ip2mac }
    if a.opcode = ARP_REQUEST ∧ a.dst_ip = VIP_IP then
      (s2, { pktOuts := [⟨OFPP_CONTROLLER, [.output inPort],
                          .arpReply a.src_mac a.src_ip⟩] })
    else
      lbVipPhase s2 inPort pkt
  | none => lbVipPhase s1 inPort pkt

/-- A packet that triggers a VIP flow decision: an IPv4 packet destined to the
VIP, carrying no ARP payload. -/
def isVipDecision (pkt : InPacket) : Bool :=
  pkt.arp = none &&
    match pkt.ipv4 with
    | some ip4 => ip4.dst = VIP_IP
    | none => false

/-- Event-sequence harness: fold `packet_in` over a list of packets arriving
on one port, recording the pool index of every round-robin selection. -/
def lbRun (inPort : Nat) : LBState → List InPacket → LBState × List Nat
  | s, [] => (s, [])
  | s, pkt :: rest =>
    let r1 := lb_packet_in s inPort pkt
    let r2 := lbRun inPort r1.1 rest
    (r2.1, r1.2.chosen.toList ++ r2.2)

/-! ## Telemetry collector (ryu_app_telemetry.py)

Timestamps and rates (Python floats) are modelled by rationals; byte and
packet counters are integers.  The `round(x, 2)` applied when a row is written
to the CSV file is a display concern of the external sink and is not part of
the rate computation modelled here. -/

/-- One element of `self.prev_port[dpid]`: the tuple
`(ts, rx_bytes, tx_bytes, rx_pkts, tx_pkts)`. -/
structure PrevSample where
  ts : ℚ
  rx_bytes : Int
  tx_bytes : Int
  rx_pkts : Int
  tx_pkts : Int
deriving DecidableEq

/-- One entry of a port-stats reply body. -/
structure PortStat where
  port_no : Nat
  rx_bytes : Int
  tx_bytes : Int
  rx_packets : Int
  tx_packets : Int
deriving DecidableEq

/-- One row appended to `port_stats_<dpid>.csv` (counters and derived
rates). -/
structure PortRow where
  port : Nat
  rx_bytes : Int
  tx_bytes : Int
  rx_pkts : Int
  tx_pkts : Int
  rx_bps : ℚ
  tx_bps : ℚ
  rx_pps : ℚ
  tx_pps : ℚ
deriving DecidableEq

/-- The epsilon `1e-9` used as floor for the elapsed time. -/
def telemEps : ℚ := 1 / 1000000000

/-- The rates computed for one port: zero when the port has no previous
sample, otherwise differences divided by `dt = max(1e-9, now - ts0)`. -/
def telemRates (now : ℚ) (prev : List (Nat × PrevSample)) (stat : PortStat) :
    ℚ × ℚ × ℚ × ℚ :=
  match dictGet stat.port_no prev with
  | none => (0, 0, 0, 0)
  | some p0 =>
    ((8 : ℚ) * ((stat.rx_bytes - p0.rx_bytes : Int) : ℚ) /
       max telemEps (now - p0.ts),
     (8 : ℚ) * ((stat.tx_bytes - p0.tx_bytes : Int) : ℚ) /
       max telemEps (now - p0.ts),
     ((stat.rx_packets - p0.rx_pkts : Int) : ℚ) / max telemEps (now - p0.ts),
     ((stat.tx_packets - p0.tx_pkts : Int) : ℚ) / max telemEps (now - p0.ts))

/-- Model of `port_stats_reply_handler` for one switch: walks the reply body,
skips local/reserved ports (`port_no >= OFPP_MAX`), computes rates against
`prev_port[dpid]`, stores the new sample and collects the CSV rows. -/
def port_stats_reply (now : ℚ) (prev : List (Nat × PrevSample)) :
    List PortStat → List (Nat × PrevSample) × List PortRow
  | [] => (prev, [])
  | stat :: rest =>
    if stat.port_no ≥ OFPP_MAX then port_stats_reply now prev rest
    else
      let r := telemRates now prev stat
      let prev1 := dictInsert stat.port_no
        (⟨now, stat.rx_bytes, stat.tx_bytes, stat.rx_packets,
          stat.tx_packets⟩ : PrevSample) prev
      let rec0 := port_stats_reply now prev1 rest
      (rec0.1,
       { port := stat.port_no, rx_bytes := stat.rx_bytes,
         tx_bytes := stat.tx_bytes, rx_pkts := stat.rx_packets,
         tx_pkts := stat.tx_packets, rx_bps := r.1, tx_bps := r.2.1,
         rx_pps := r.2.2.1, tx_pps := r.2.2.2 } :: rec0.2)

/-! ## Firewall (ryu_app_firewall.py) -/

/-- One configured drop rule: the keyword arguments handed to
`parser.OFPMatch(**match_kwargs)`, plus whether the parser accepts them
(`OFPMatch` raises on unknown or ill-typed fields; that library behaviour is
abstracted as a flag). -/
structure FWRule where
  fields : List (String × Nat)
  valid : Bool
deriving DecidableEq

/-- An OpenFlow 1.3 instruction as used by the firewall. -/
inductive FWInstruction where
  | clearActions (actions : List OFAction)
deriving DecidableEq

/-- A flow mod issued by `SimpleFirewall.switch_features_handler`. -/
structure FWFlowMod where
  priority : Nat
  fwMatch : List (String × Nat)
  instructions : List FWInstruction
deriving DecidableEq

/-- Model of `SimpleFirewall.switch_features_handler`: for each configured
rule build the match and install a priority-100 flow mod whose only
instruction is CLEAR_ACTIONS with an empty action list; a rule the parser
rejects is logged (collected in the second component) and skipped. -/
def fw_switch_features : List FWRule → List FWFlowMod × List FWRule
  | [] => ([], [])
  | r :: rest =>
    let rec0 := fw_switch_features rest
    if r.valid then
      ({ priority := 100, fwMatch := r.fields,
         instructions := [.clearActions []] } :: rec0.1, rec0.2)
    else
      (rec0.1, r :: rec0.2)

/-! ## Cross-application per-switch state (claim C5)

`Telemetry13._handler_dp` reacts to switch join/leave events
(`dpset.EventDP`): on leave it pops the session from `self.datapaths` and the
telemetry baseline from `self.prev_port`.  `LearningSwitch13` registers no
disconnect handler at all, so `self.mac_to_port` is untouched by a switch
leaving. -/

/-- The datapath handle stored in `Telemetry13.datapaths`. -/
structure Datapath where
  id : Nat
deriving DecidableEq

/-- The per-switch mutable state of the whole controller relevant to
disconnects: the telemetry session registry and baseline, and the learning
switch's MAC table. -/
structure ControllerState where
  datapaths : List (Nat × Datapath)
  prev_port : List (Nat × List (Nat × PrevSample))
  mac_to_port : MacToPort
deriving DecidableEq

/-- Model of `Telemetry13._handler_dp` combined with the (absent) disconnect
handling of the other applications: on enter, register the datapath; on
leave, pop the session and the telemetry baseline.  No application removes
entries from `mac_to_port`. -/
def handler_dp (cs : ControllerState) (dp : Datapath) (enter : Bool) :
    ControllerState :=
  if enter then
    { cs with datapaths := dictInsert dp.id dp cs.datapaths }
  else
    { cs with datapaths := dictPop dp.id cs.datapaths,
              prev_port := dictPop dp.id cs.prev_port }

/-! ## Round-robin selection arithmetic

`rrSel N i K` is the sequence of pool indices produced by `K` consecutive
`_choose_server` calls starting from pointer value `i` over a pool of size
`N`. -/

/-- Index sequence of K round-robin selections starting at pointer i. -/
def rrSel (N i K : Nat) : List Nat :=
  (List.range K).map (fun k => (i + k) % N)

/-! ## Association-list dictionary lemmas -/

theorem dictGet_insert_self {α β : Type} [DecidableEq α] (k : α) (v : β)
    (l : List (α × β)) : dictGet k (dictInsert k v l) = some v := by
  induction l with
  | nil => simp [dictInsert, dictGet]
  | cons e rest ih =>
    by_cases h : e.1 = k
    · simp [dictInsert, dictGet, h]
    · simp [dictInsert, dictGet, h, ih]

theorem dictGet_insert_ne {α β : Type} [DecidableEq α] (k k' : α) (v : β)
    (l : List (α × β)) (h : k' ≠ k) :
    dictGet k' (dictInsert k v l) = dictGet k' l := by
  have hkk : ¬ k = k' := fun hc => h hc.symm
  induction l with
  | nil => simp [dictInsert, dictGet, hkk]
  | cons e rest ih =>
    by_cases he : e.1 = k
    · have he' : ¬ e.1 = k' := by rw [he]; exact hkk
      simp [dictInsert, dictGet, he, hkk, he']
    · simp [dictInsert, dictGet, he, ih]

theorem dictInsert_of_get_eq {α β : Type} [DecidableEq α] (k : α) (v : β)
    (l : List (α × β)) (h : dictGet k l = some v) : dictInsert k v l = l := by
  induction l with
  | nil => simp [dictGet] at h
  | cons e rest ih =>
    obtain ⟨k1, v1⟩ := e
    by_cases he : k1 = k
    · simp [dictGet, he] at h
      simp [dictInsert, he, h]
    · simp [dictGet, he] at h
      simp [dictInsert, he, ih h]

theorem dictGet_mem {α β : Type} [DecidableEq α] {k : α} {v : β}
    {l : List (α × β)} (h : dictGet k l = some v) : (k, v) ∈ l := by
  induction l with
  | nil => simp [dictGet] at h
  | cons e rest ih =>
    obtain ⟨k1, v1⟩ := e
    by_cases he : k1 = k
    · simp [dictGet, he] at h
      subst he
      simp [h]
    · simp [dictGet, he] at h
      exact List.mem_cons_of_mem _ (ih h)

theorem mem_dictInsert {α β : Type} [DecidableEq α] {k : α} {v : β}
    {e : α × β} {l : List (α × β)} (h : e ∈ dictInsert k v l) :
    e = (k, v) ∨ e ∈ l := by
  induction l with
  | nil => simpa [dictInsert] using h
  | cons e' rest ih =>
    by_cases he : e'.1 = k
    · simp [dictInsert, he] at h
      rcases h with h | h
      · exact Or.inl h
      · exact Or.inr (List.mem_cons_of_mem _ h)
    · simp [dictInsert, he] at h
      rcases h with h | h
      · exact Or.inr (by simp [h])
      · rcases ih h with h' | h'
        · exact Or.inl h'
        · exact Or.inr (List.mem_cons_of_mem _ h')

theorem dictInsert_keysNodup {α β : Type} [DecidableEq α] (k : α) (v : β)
    {l : List (α × β)} (h : keysNodup l) : keysNodup (dictInsert k v l) := by
  induction l with
  | nil => simp [dictInsert, keysNodup]
  | cons e rest ih =>
    unfold keysNodup at h
    simp only [List.map_cons, List.nodup_cons] at h
    by_cases he : e.1 = k
    · unfold keysNodup
      simp only [dictInsert, he, if_pos, List.map_cons, List.nodup_cons]
      exact ⟨by rw [← he]; exact h.1, h.2⟩
    · have ih' := ih h.2
      unfold keysNodup at ih' ⊢
      simp only [dictInsert, he, if_neg, not_false_iff, List.map_cons,
        List.nodup_cons]
      refine ⟨?_, ih'⟩
      intro hmem
      rcases List.mem_map.1 hmem with ⟨e', he', hfst⟩
      rcases mem_dictInsert he' with h' | h'
      · exact he (by rw [← hfst, h'])
      · exact h.1 (List.mem_map.2 ⟨e', h', hfst⟩)

theorem keyCount_cons {α β : Type} [DecidableEq α] (k : α) (e : α × β)
    (l : List (α × β)) :
    keyCount k (e :: l) = (if e.1 = k then 1 else 0) + keyCount k l := by
  by_cases he : e.1 = k <;> simp [keyCount, List.filter_cons, he, Nat.add_comm]

theorem keyCount_eq_zero {α β : Type} [DecidableEq α] (k : α)
    {l : List (α × β)} (h : k ∉ l.map Prod.fst) : keyCount k l = 0 := by
  induction l with
  | nil => simp [keyCount]
  | cons e rest ih =>
    simp only [List.map_cons, List.mem_cons, not_or] at h
    have he : ¬ e.1 = k := fun hc => h.1 hc.symm
    rw [keyCount_cons, if_neg he, ih h.2]

theorem keyCount_insert {α β : Type} [DecidableEq α] (k : α) (v : β)
    {l : List (α × β)} (h : keysNodup l) :
    keyCount k (dictInsert k v l) = 1 := by
  induction l with
  | nil => simp [dictInsert, keyCount, List.filter]
  | cons e rest ih =>
    unfold keysNodup at h
    simp only [List.map_cons, List.nodup_cons] at h
    by_cases he : e.1 = k
    · have hk : k ∉ rest.map Prod.fst := by rw [← he]; exact h.1
      simp only [dictInsert, he, if_pos]
      rw [keyCount_cons, keyCount_eq_zero k hk]
      simp
    · have ih' := ih h.2
      simp only [dictInsert, he, if_neg, not_false_iff]
      rw [keyCount_cons, if_neg he, ih']

theorem dictGet_pop_self {α β : Type} [DecidableEq α] (k : α)
    (l : List (α × β)) : dictGet k (dictPop k l) = none := by
  induction l with
  | nil => simp [dictPop, dictGet]
  | cons e rest ih =>
    by_cases he : e.1 = k
    · simpa [dictPop, List.filter_cons, he] using ih
    · simp only [dictPop, List.filter_cons] at ih ⊢
      simp [he, dictGet, ih]

theorem rrSel_nodup (N i K : Nat) (hK : K ≤ N) : (rrSel N i K).Nodup := by
  refine List.Nodup.map_on ?_ (List.nodup_range K)
  intro x hx y hy hxy
  have hx' : x < N := lt_of_lt_of_le (List.mem_range.1 hx) hK
  have hy' : y < N := lt_of_lt_of_le (List.mem_range.1 hy) hK
  have h' : x ≡ y [MOD N] := Nat.ModEq.add_left_cancel' i hxy
  rwa [Nat.ModEq, Nat.mod_eq_of_lt hx', Nat.mod_eq_of_lt hy'] at h'

theorem rrSel_mem (N i j : Nat) (hN : 0 < N) (hj : j < N) :
    j ∈ rrSel N i N := by
  unfold rrSel
  refine List.mem_map.2
    ⟨(N + j - i % N) % N, List.mem_range.2 (Nat.mod_lt _ hN), ?_⟩
  have hr : i % N < N := Nat.mod_lt i hN
  have hdm : N * (i / N) + i % N = i := Nat.div_add_mod i N
  rw [Nat.add_mod_mod]
  have h1 : i + (N + j - i % N) = j + (N * (i / N) + N) := by omega
  rw [h1, ← Nat.mul_succ, Nat.add_mul_mod_self_left, Nat.mod_eq_of_lt hj]

theorem rrSel_count_cycle (N i j : Nat) (hN : 0 < N) (hj : j < N) :
    (rrSel N i N).count j = 1 :=
  List.count_eq_one_of_mem (rrSel_nodup N i N le_rfl) (rrSel_mem N i j hN hj)

theorem rrSel_add (N i K : Nat) :
    rrSel N i (N + K) = rrSel N i N ++ rrSel N i K := by
  unfold rrSel
  rw [List.range_add, List.map_append, List.map_map]
  congr 1
  refine List.map_congr_left ?_
  intro k _
  show (i + (N + k)) % N = (i + k) % N
  have h1 : i + (N + k) = i + k + N := by omega
  rw [h1, Nat.add_mod_right]

/-- Each index `j < N` occurs in `K` round-robin selections either
`⌊K / N⌋` times or `⌈K / N⌉ = (K + N - 1) / N` times. -/
theorem rrSel_count (N j : Nat) (hN : 0 < N) (hj : j < N) :
    ∀ K i, (rrSel N i K).count j = K / N ∨
      (rrSel N i K).count j = (K + N - 1) / N := by
  intro K
  induction K using Nat.strong_induction_on with
  | _ K ih =>
    intro i
    by_cases hK : K < N
    · have hnd := rrSel_nodup N i K (le_of_lt hK)
      have hle : (rrSel N i K).count j ≤ 1 :=
        List.nodup_iff_count_le_one.1 hnd j
      rcases Nat.le_one_iff_eq_zero_or_eq_one.1 hle with h0 | h1
      · left
        rw [h0, Nat.div_eq_of_lt hK]
      · right
        have hjmem : j ∈ rrSel N i K := List.count_pos_iff.1 (by omega)
        have hKpos : 0 < K := by
          rcases List.mem_map.1 hjmem with ⟨k, hk, _⟩
          exact Nat.pos_of_ne_zero fun h => by
            simp [h] at hk
        rw [h1]
        symm
        exact Nat.div_eq_of_lt_le (by omega) (by simpa using by omega)
    · push_neg at hK
      have hdec : K = N + (K - N) := by omega
      rw [hdec, rrSel_add, List.count_append,
        rrSel_count_cycle N i j hN hj]
      have ih' := ih (K - N) (by omega) i
      rcases ih' with h | h
      · left
        have h1 : (N + (K - N)) / N = (K - N) / N + 1 := by
          rw [Nat.add_comm, Nat.add_div_right _ hN]
        rw [h1, h]
        exact Nat.add_comm 1 _
      · right
        have h2 : N + (K - N) + N - 1 = K - N + N - 1 + N := by omega
        rw [h2, Nat.add_div_right _ hN, h]
        exact Nat.add_comm 1 _

/-! ## Load balancer lemmas -/

theorem rrSel_succ (N i K : Nat) (hi : i < N) :
    rrSel N i (K + 1) = i :: rrSel N ((i + 1) % N) K := by
  unfold rrSel
  rw [List.range_succ_eq_map, List.map_cons, List.map_map]
  congr 1
  · simp [Nat.mod_eq_of_lt hi]
  · refine List.map_congr_left ?_
    intro k _
    show (i + Nat.succ k) % N = ((i + 1) % N + k) % N
    rw [Nat.mod_add_mod]
    congr 1
    omega

theorem lbLearnIp_rr_index (s : LBState) (pkt : InPacket) :
    (lbLearnIp s pkt).rr_index = s.rr_index := by
  unfold lbLearnIp
  split <;> first | rfl | split <;> rfl

theorem lbLearnIp_pool (s : LBState) (pkt : InPacket) :
    (lbLearnIp s pkt).pool = s.pool := by
  unfold lbLearnIp
  split <;> first | rfl | split <;> rfl

theorem lbChooseServer_none {s s1 : LBState}
    (h : lbChooseServer s = (none, s1)) : s1 = s := by
  unfold lbChooseServer at h
  cases hget : s.pool.get? s.rr_index <;> rw [hget] at h <;>
    simp at h
  exact h.symm

theorem lbChooseServer_some {s s1 : LBState} {idx : Nat} {srv : Server}
    (h : lbChooseServer s = (some (idx, srv), s1)) :
    idx = s.rr_index ∧ s.pool.get? s.rr_index = some srv ∧
      s1 = { s with rr_index := (s.rr_index + 1) % s.pool.length } := by
  unfold lbChooseServer at h
  cases hget : s.pool.get? s.rr_index <;> rw [hget] at h <;>
    simp at h
  exact ⟨h.1.1.symm, by rw [h.1.2], h.2.symm⟩

theorem lbPoolWriteBack_rr_index (s1 : LBState) (idx : Nat) (srv : Server)
    (mac0 : Option String) :
    (lbPoolWriteBack s1 idx srv mac0).rr_index = s1.rr_index := by
  unfold lbPoolWriteBack
  split <;> rfl

theorem lbPoolWriteBack_pool_length (s1 : LBState) (idx : Nat) (srv : Server)
    (mac0 : Option String) :
    (lbPoolWriteBack s1 idx srv mac0).pool.length = s1.pool.length := by
  unfold lbPoolWriteBack
  split
  · rfl
  · simp [List.length_set]

theorem lbVipNat_state (s1 : LBState) (inPort idx : Nat) (srv : Server)
    (clientIp : String) :
    (lbVipNat s1 inPort idx srv clientIp).1.rr_index = s1.rr_index ∧
    (lbVipNat s1 inPort idx srv clientIp).1.pool.length = s1.pool.length ∧
    (lbVipNat s1 inPort idx srv clientIp).2.chosen = some idx := by
  unfold lbVipNat
  cases hres : lbResolvedMac s1.ip2mac srv <;>
    simp [hres, lbPoolWriteBack_rr_index, lbPoolWriteBack_pool_length]

theorem lbVipNat_unresolved (s1 : LBState) (inPort idx : Nat) (srv : Server)
    (clientIp : String) (hres : lbResolvedMac s1.ip2mac srv = none) :
    (lbVipNat s1 inPort idx srv clientIp).2 =
      { chosen := some idx, flowMods := [],
        pktOuts := [⟨inPort, [.output OFPP_FLOOD], .original⟩] } := by
  unfold lbVipNat
  simp [hres]

theorem lbVipNat_resolved (s1 : LBState) (inPort idx : Nat) (srv : Server)
    (clientIp smac : String)
    (hres : lbResolvedMac s1.ip2mac srv = some smac) :
    (lbVipNat s1 inPort idx srv clientIp).2 =
      { chosen := some idx,
        flowMods :=
          [{ priority := 10,
             flowMatch := { eth_type := some ETH_TYPE_IP,
                            ipv4_dst := some VIP_IP },
             actions := [.setIpv4Dst srv.ip, .setEthDst smac,
                         .output OFPP_NORMAL],
             idle_timeout := 30, hard_timeout := 0 },
           { priority := 10,
             flowMatch := { eth_type := some ETH_TYPE_IP,
                            ipv4_src := some srv.ip,
                            ipv4_dst := some clientIp },
             actions := [.setIpv4Src VIP_IP, .setEthSrc VIP_MAC,
                         .output inPort],
             idle_timeout := 30, hard_timeout := 0 }],
        pktOuts := [⟨inPort, [.setIpv4Dst srv.ip, .setEthDst smac,
                              .output OFPP_FLOOD], .original⟩] } := by
  unfold lbVipNat
  simp [hres]

theorem lbVipPhase_vip (s : LBState) (inPort : Nat) (pkt : InPacket)
    (ip4 : IPv4Header) (hip : pkt.ipv4 = some ip4) (hdst : ip4.dst = VIP_IP)
    (hrr : s.rr_index < s.pool.length) :
    ∃ srv, s.pool.get? s.rr_index = some srv ∧
      lbVipPhase s inPort pkt =
        lbVipNat { s with rr_index := (s.rr_index + 1) % s.pool.length }
          inPort s.rr_index srv ip4.src := by
  obtain ⟨srv, hget⟩ : ∃ srv, s.pool.get? s.rr_index = some srv := by
    cases hg : s.pool.get? s.rr_index with
    | none => exact absurd (List.get?_eq_none.1 hg) (Nat.not_le.2 hrr)
    | some srv => exact ⟨srv, rfl⟩
  refine ⟨srv, hget, ?_⟩
  have hcs : lbChooseServer s =
      (some (s.rr_index, srv),
       { s with rr_index := (s.rr_index + 1) % s.pool.length }) := by
    unfold lbChooseServer
    rw [hget]
  unfold lbVipPhase
  rw [hip]
  simp only [hdst, hcs]
  simp

theorem lbVipPhase_no_ipv4 (s : LBState) (inPort : Nat) (pkt : InPacket)
    (hip : pkt.ipv4 = none) : lbVipPhase s inPort pkt = (s, {}) := by
  unfold lbVipPhase
  rw [hip]

theorem lb_step_no_arp (s : LBState) (inPort : Nat) (pkt : InPacket)
    (harp : pkt.arp = none) :
    lb_packet_in s inPort pkt = lbVipPhase (lbLearnIp s pkt) inPort pkt := by
  unfold lb_packet_in
  rw [harp]

theorem lb_step_vip (s : LBState) (inPort : Nat) (pkt : InPacket)
    (ip4 : IPv4Header) (harp : pkt.arp = none) (hip : pkt.ipv4 = some ip4)
    (hdst : ip4.dst = VIP_IP) (hrr : s.rr_index < s.pool.length) :
    (lb_packet_in s inPort pkt).2.chosen = some s.rr_index ∧
    (lb_packet_in s inPort pkt).1.rr_index =
      (s.rr_index + 1) % s.pool.length ∧
    (lb_packet_in s inPort pkt).1.pool.length = s.pool.length := by
  set s1 := lbLearnIp s pkt with hs1
  have hrr1 : s1.rr_index < s1.pool.length := by
    rw [hs1, lbLearnIp_rr_index, lbLearnIp_pool]
    exact hrr
  obtain ⟨srv, hget, hphase⟩ := lbVipPhase_vip s1 inPort pkt ip4 hip hdst hrr1
  have hvn := lbVipNat_state
    { s1 with rr_index := (s1.rr_index + 1) % s1.pool.length }
    inPort s1.rr_index srv ip4.src
  rw [lb_step_no_arp s inPort pkt harp, ← hs1, hphase]
  refine ⟨?_, ?_, ?_⟩
  · rw [hvn.2.2, hs1, lbLearnIp_rr_index]
  · rw [hvn.1]
    simp only [hs1, lbLearnIp_rr_index, lbLearnIp_pool]
  · rw [hvn.2.1]
    simp only [hs1, lbLearnIp_rr_index, lbLearnIp_pool]

theorem lb_step_arp (s : LBState) (inPort : Nat) (pkt : InPacket)
    (a : ArpHeader) (harp : pkt.arp = some a) :
    lb_packet_in s inPort pkt =
      (if a.opcode = ARP_REQUEST ∧ a.dst_ip = VIP_IP then
        ({ lbLearnIp s pkt with
            ip2mac := dictInsert a.src_ip a.src_mac (lbLearnIp s pkt).ip2mac },
         { pktOuts := [⟨OFPP_CONTROLLER, [.output inPort],
                        .arpReply a.src_mac a.src_ip⟩] })
      else
        lbVipPhase
          { lbLearnIp s pkt with
              ip2mac := dictInsert a.src_ip a.src_mac (lbLearnIp s pkt).ip2mac }
          inPort pkt) := by
  unfold lb_packet_in
  rw [harp]

theorem lb_step_no_ipv4 (s : LBState) (inPort : Nat) (pkt : InPacket)
    (hip : pkt.ipv4 = none) :
    (lb_packet_in s inPort pkt).1.rr_index = s.rr_index ∧
    (lb_packet_in s inPort pkt).1.pool = s.pool ∧
    (lb_packet_in s inPort pkt).2.chosen = none := by
  have hl : lbLearnIp s pkt = s := by
    unfold lbLearnIp
    rw [hip]
  cases harp : pkt.arp with
  | none =>
    rw [lb_step_no_arp s inPort pkt harp, hl,
      lbVipPhase_no_ipv4 s inPort pkt hip]
    exact ⟨rfl, rfl, rfl⟩
  | some a =>
    rw [lb_step_arp s inPort pkt a harp, hl]
    by_cases hreq : a.opcode = ARP_REQUEST ∧ a.dst_ip = VIP_IP
    · rw [if_pos hreq]
      exact ⟨rfl, rfl, rfl⟩
    · rw [if_neg hreq, lbVipPhase_no_ipv4 _ inPort pkt hip]
      exact ⟨rfl, rfl, rfl⟩

theorem lbVipPhase_shape (s : LBState) (inPort : Nat) (pkt : InPacket) :
    ((lbVipPhase s inPort pkt).1.rr_index = s.rr_index ∨
      (lbVipPhase s inPort pkt).1.rr_index =
        (s.rr_index + 1) % s.pool.length) ∧
    (lbVipPhase s inPort pkt).1.pool.length = s.pool.length := by
  cases hip : pkt.ipv4 with
  | none =>
    rw [lbVipPhase_no_ipv4 s inPort pkt hip]
    exact ⟨Or.inl rfl, rfl⟩
  | some ip4 =>
    by_cases hdst : ip4.dst = VIP_IP
    · by_cases hrr : s.rr_index < s.pool.length
      · obtain ⟨srv, hget, hphase⟩ :=
          lbVipPhase_vip s inPort pkt ip4 hip hdst hrr
        have hvn := lbVipNat_state
          { s with rr_index := (s.rr_index + 1) % s.pool.length }
          inPort s.rr_index srv ip4.src
        rw [hphase]
        exact ⟨Or.inr hvn.1, hvn.2.1⟩
      · have hget : s.pool.get? s.rr_index = none :=
          List.get?_eq_none.2 (Nat.not_lt.1 hrr)
        have hcs : lbChooseServer s = (none, s) := by
          unfold lbChooseServer
          rw [hget]
        unfold lbVipPhase
        rw [hip]
        simp [hdst, hcs]
    · unfold lbVipPhase
      rw [hip]
      simp [hdst]

theorem lb_step_rr_shape (s : LBState) (inPort : Nat) (pkt : InPacket) :
    ((lb_packet_in s inPort pkt).1.rr_index = s.rr_index ∨
      (lb_packet_in s inPort pkt).1.rr_index =
        (s.rr_index + 1) % s.pool.length) ∧
    (lb_packet_in s inPort pkt).1.pool.length = s.pool.length := by
  cases harp : pkt.arp with
  | none =>
    rw [lb_step_no_arp s inPort pkt harp]
    have h := lbVipPhase_shape (lbLearnIp s pkt) inPort pkt
    rwa [lbLearnIp_rr_index, lbLearnIp_pool] at h
  | some a =>
    rw [lb_step_arp s inPort pkt a harp]
    by_cases hreq : a.opcode = ARP_REQUEST ∧ a.dst_ip = VIP_IP
    · rw [if_pos hreq]
      constructor
      · exact Or.inl (by simp [lbLearnIp_rr_index])
      · simp [lbLearnIp_pool]
    · rw [if_neg hreq]
      have h := lbVipPhase_shape
        { lbLearnIp s pkt with
            ip2mac := dictInsert a.src_ip a.src_mac (lbLearnIp s pkt).ip2mac }
        inPort pkt
      simpa [lbLearnIp_rr_index, lbLearnIp_pool] using h

theorem isVipDecision_spec {pkt : InPacket} (h : isVipDecision pkt = true) :
    pkt.arp = none ∧ ∃ ip4, pkt.ipv4 = some ip4 ∧ ip4.dst = VIP_IP := by
  unfold isVipDecision at h
  rw [Bool.and_eq_true] at h
  obtain ⟨h1, h2⟩ := h
  refine ⟨of_decide_eq_true h1, ?_⟩
  cases hip : pkt.ipv4 with
  | none =>
    rw [hip] at h2
    simp at h2
  | some ip4 =>
    rw [hip] at h2
    simp at h2
    exact ⟨ip4, rfl, h2⟩

theorem lbRun_trace (inPort : Nat) :
    ∀ (pkts : List InPacket) (s : LBState),
      0 < s.pool.length → s.rr_index < s.pool.length →
      (∀ p ∈ pkts, isVipDecision p = true) →
      (lbRun inPort s pkts).2 =
        rrSel s.pool.length s.rr_index pkts.length ∧
      (lbRun inPort s pkts).1.pool.length = s.pool.length := by
  intro pkts
  induction pkts with
  | nil =>
    intro s hN hrr _
    exact ⟨rfl, rfl⟩
  | cons pkt rest ih =>
    intro s hN hrr hvip
    obtain ⟨harp, ip4, hip, hdst⟩ := isVipDecision_spec (hvip pkt (by simp))
    have hstep := lb_step_vip s inPort pkt ip4 harp hip hdst hrr
    set s' := (lb_packet_in s inPort pkt).1 with hs'
    have hlen' : s'.pool.length = s.pool.length := hstep.2.2
    have hrr' : s'.rr_index < s'.pool.length := by
      rw [hstep.2.1, hlen']
      exact Nat.mod_lt _ hN
    have ihr := ih s' (by rw [hlen']; exact hN) hrr'
      (fun p hp => hvip p (List.mem_cons_of_mem _ hp))
    have hrun : lbRun inPort s (pkt :: rest) =
        ((lbRun inPort s' rest).1,
         (lb_packet_in s inPort pkt).2.chosen.toList ++
           (lbRun inPort s' rest).2) := by
      simp only [lbRun]
    rw [hrun]
    constructor
    · simp only [List.length_cons]
      rw [hstep.1, ihr.1, hlen', hstep.2.1,
        rrSel_succ s.pool.length s.rr_index rest.length hrr]
      rfl
    · rw [ihr.2, hlen']

/-! ## Learning switch lemmas -/

theorem ls_packet_in_fst (t : MacToPort) (dpid inPort buffer_id : Nat)
    (eth : EthHeader)
    (hig : ¬ (eth.ethertype = ETH_TYPE_LLDP ∨
              pyStartsWith eth.dst "33:33:" = true)) :
    (ls_packet_in t dpid inPort buffer_id eth).1 =
      dictInsert dpid (lsLearnedTable t dpid inPort eth) t := by
  unfold ls_packet_in
  rw [if_neg hig]
  dsimp only
  split <;> rfl

theorem ls_packet_in_found (t : MacToPort) (dpid inPort buffer_id : Nat)
    (eth : EthHeader) (p : Nat)
    (hig : ¬ (eth.ethertype = ETH_TYPE_LLDP ∨
              pyStartsWith eth.dst "33:33:" = true))
    (hfound : dictGet eth.dst (lsLearnedTable t dpid inPort eth) = some p)
    (hp : p ≠ OFPP_FLOOD) :
    (ls_packet_in t dpid inPort buffer_id eth).2 =
      some { out_port := p,
             flowMod := some (ls_add_flow 1 eth.dst [.output p]
               (some buffer_id)),
             pktOut := none } := by
  unfold ls_packet_in
  rw [if_neg hig]
  dsimp only
  rw [hfound]
  simp [hp]

theorem ls_packet_in_notfound (t : MacToPort) (dpid inPort buffer_id : Nat)
    (eth : EthHeader)
    (hig : ¬ (eth.ethertype = ETH_TYPE_LLDP ∨
              pyStartsWith eth.dst "33:33:" = true))
    (hnone : dictGet eth.dst (lsLearnedTable t dpid inPort eth) = none) :
    (ls_packet_in t dpid inPort buffer_id eth).2 =
      some { out_port := OFPP_FLOOD, flowMod := none,
             pktOut := some ⟨inPort, [.output OFPP_FLOOD]⟩ } := by
  unfold ls_packet_in
  rw [if_neg hig]
  dsimp only
  rw [hnone]
  simp

/-! ## Claim theorems: learning switch -/

/-- Claim C6: for every non-ignored packet-arrival event, if the destination
MAC is present in the learning table for that dpid (with the source just
learned, and recording a real port, not the FLOOD constant — learned entries
are always ingress ports), the engine emits a unicast output action to the
learned port and installs a flow rule matching eth_dst at priority 1; if it
is absent, the engine emits a flood output and installs no persistent
rule. -/
theorem claim_C6 (t : MacToPort) (dpid inPort buffer_id : Nat)
    (eth : EthHeader)
    (hig : ¬ (eth.ethertype = ETH_TYPE_LLDP ∨
              pyStartsWith eth.dst "33:33:" = true)) :
    (∀ p, dictGet eth.dst (lsLearnedTable t dpid inPort eth) = some p →
      p ≠ OFPP_FLOOD →
      (ls_packet_in t dpid inPort buffer_id eth).2 =
        some { out_port := p,
               flowMod := some (ls_add_flow 1 eth.dst [.output p]
                 (some buffer_id)),
               pktOut := none }) ∧
    (dictGet eth.dst (lsLearnedTable t dpid inPort eth) = none →
      (ls_packet_in t dpid inPort buffer_id eth).2 =
        some { out_port := OFPP_FLOOD, flowMod := none,
               pktOut := some ⟨inPort, [.output OFPP_FLOOD]⟩ }) :=
  ⟨fun p hf hp => ls_packet_in_found t dpid inPort buffer_id eth p hig hf hp,
   fun hn => ls_packet_in_notfound t dpid inPort buffer_id eth hig hn⟩

theorem claim_C6_witness :
    ¬ ((⟨"00:00:00:00:00:01", "00:00:00:00:00:02",
          ETH_TYPE_IP⟩ : EthHeader).ethertype = ETH_TYPE_LLDP ∨
       pyStartsWith "00:00:00:00:00:02" "33:33:" = true) ∧
    dictGet "00:00:00:00:00:02"
      (lsLearnedTable [(1, [("00:00:00:00:00:02", 2)])] 1 1
        ⟨"00:00:00:00:00:01", "00:00:00:00:00:02", ETH_TYPE_IP⟩) = some 2 ∧
    (ls_packet_in [(1, [("00:00:00:00:00:02", 2)])] 1 1 OFP_NO_BUFFER
        ⟨"00:00:00:00:00:01", "00:00:00:00:00:02", ETH_TYPE_IP⟩).2 =
      some { out_port := 2,
             flowMod := some (ls_add_flow 1 "00:00:00:00:00:02"
               [.output 2] (some OFP_NO_BUFFER)),
             pktOut := none } :=
  ⟨by decide, by decide,
   (claim_C6 [(1, [("00:00:00:00:00:02", 2)])] 1 1 OFP_NO_BUFFER
       ⟨"00:00:00:00:00:01", "00:00:00:00:00:02", ETH_TYPE_IP⟩
       (by decide)).1 2 (by decide) (by decide)⟩

/-- Claim C7: the MAC learning table keeps at most one port per (dpid, MAC):
well-formedness is preserved, the just-learned source maps to the ingress
port and occupies exactly one entry, re-observing the same (dpid, MAC, port)
leaves the table unchanged, and observing the same MAC on a different port
overwrites the entry. -/
theorem claim_C7 (t : MacToPort) (dpid inPort buffer_id p2 : Nat)
    (eth : EthHeader) (hwf : MacWF t)
    (hig : ¬ (eth.ethertype = ETH_TYPE_LLDP ∨
              pyStartsWith eth.dst "33:33:" = true)) :
    MacWF (ls_packet_in t dpid inPort buffer_id eth).1 ∧
    dictGet eth.src
      (innerOf (ls_packet_in t dpid inPort buffer_id eth).1 dpid) =
      some inPort ∧
    keyCount eth.src
      (innerOf (ls_packet_in t dpid inPort buffer_id eth).1 dpid) = 1 ∧
    (ls_packet_in (ls_packet_in t dpid inPort buffer_id eth).1 dpid inPort
        buffer_id eth).1 = (ls_packet_in t dpid inPort buffer_id eth).1 ∧
    dictGet eth.src
      (innerOf (ls_packet_in (ls_packet_in t dpid inPort buffer_id eth).1
          dpid p2 buffer_id eth).1 dpid) = some p2 := by
  have hinner0 : keysNodup ((dictGet dpid t).getD []) := by
    cases hg : dictGet dpid t with
    | none => simp [keysNodup]
    | some i => simpa using hwf.2 _ (dictGet_mem hg)
  have hinner1 : keysNodup (lsLearnedTable t dpid inPort eth) := by
    unfold lsLearnedTable
    exact dictInsert_keysNodup _ _ hinner0
  have hfst := ls_packet_in_fst t dpid inPort buffer_id eth hig
  rw [hfst]
  have hio : innerOf (dictInsert dpid (lsLearnedTable t dpid inPort eth) t)
      dpid = lsLearnedTable t dpid inPort eth := by
    unfold innerOf
    rw [dictGet_insert_self]
    rfl
  have hsrc : dictGet eth.src (lsLearnedTable t dpid inPort eth) =
      some inPort := by
    unfold lsLearnedTable
    exact dictGet_insert_self _ _ _
  have hlt : lsLearnedTable
      (dictInsert dpid (lsLearnedTable t dpid inPort eth) t) dpid inPort eth
      = lsLearnedTable t dpid inPort eth := by
    conv =>
      lhs
      unfold lsLearnedTable
    rw [dictGet_insert_self]
    exact dictInsert_of_get_eq _ _ _ hsrc
  refine ⟨?_, ?_, ?_, ?_, ?_⟩
  · constructor
    · exact dictInsert_keysNodup _ _ hwf.1
    · intro e he
      rcases mem_dictInsert he with he' | he'
      · rw [he']
        exact hinner1
      · exact hwf.2 e he'
  · rw [hio]
    exact hsrc
  · rw [hio]
    unfold lsLearnedTable
    exact keyCount_insert _ _ hinner0
  · rw [ls_packet_in_fst _ dpid inPort buffer_id eth hig, hlt]
    exact dictInsert_of_get_eq _ _ _ (dictGet_insert_self _ _ _)
  · rw [ls_packet_in_fst _ dpid p2 buffer_id eth hig]
    unfold innerOf
    rw [dictGet_insert_self]
    show dictGet eth.src (lsLearnedTable _ dpid p2 eth) = some p2
    unfold lsLearnedTable
    exact dictGet_insert_self _ _ _

theorem claim_C7_witness :
    MacWF ([] : MacToPort) ∧
    ¬ ((⟨"00:00:00:00:00:01", "00:00:00:00:00:02",
          ETH_TYPE_IP⟩ : EthHeader).ethertype = ETH_TYPE_LLDP ∨
       pyStartsWith "00:00:00:00:00:02" "33:33:" = true) ∧
    dictGet "00:00:00:00:00:01"
      (innerOf (ls_packet_in ([] : MacToPort) 1 1 OFP_NO_BUFFER
          ⟨"00:00:00:00:00:01", "00:00:00:00:00:02", ETH_TYPE_IP⟩).1 1) =
      some 1 ∧
    keyCount "00:00:00:00:00:01"
      (innerOf (ls_packet_in ([] : MacToPort) 1 1 OFP_NO_BUFFER
          ⟨"00:00:00:00:00:01", "00:00:00:00:00:02", ETH_TYPE_IP⟩).1 1) =
      1 ∧
    dictGet "00:00:00:00:00:01"
      (innerOf (ls_packet_in (ls_packet_in ([] : MacToPort) 1 1 OFP_NO_BUFFER
          ⟨"00:00:00:00:00:01", "00:00:00:00:00:02", ETH_TYPE_IP⟩).1 1 5
          OFP_NO_BUFFER
          ⟨"00:00:00:00:00:01", "00:00:00:00:00:02", ETH_TYPE_IP⟩).1 1) =
      some 5 :=
  ⟨by decide, by decide,
   (claim_C7 [] 1 1 OFP_NO_BUFFER 5
       ⟨"00:00:00:00:00:01", "00:00:00:00:00:02", ETH_TYPE_IP⟩
       (by decide) (by decide)).2.1,
   (claim_C7 [] 1 1 OFP_NO_BUFFER 5
       ⟨"00:00:00:00:00:01", "00:00:00:00:00:02", ETH_TYPE_IP⟩
       (by decide) (by decide)).2.2.1,
   (claim_C7 [] 1 1 OFP_NO_BUFFER 5
       ⟨"00:00:00:00:00:01", "00:00:00:00:00:02", ETH_TYPE_IP⟩
       (by decide) (by decide)).2.2.2.2⟩

/-- Claim C8 (as stated) is false: a frame whose reserved-multicast
destination lies in the `01:80:c2:...` range but whose ethertype is not LLDP
IS learned and forwarded — the handler only filters the LLDP ethertype and
`33:33:`-prefixed destinations.  Concretely, an IPv4 frame to
`01:80:c2:00:00:00` updates the MAC table and produces a flood decision. -/
theorem claim_C8_counterexample :
    (ls_packet_in ([] : MacToPort) 1 1 OFP_NO_BUFFER
        ⟨"00:00:00:00:00:01", "01:80:c2:00:00:00", ETH_TYPE_IP⟩).1 =
      [(1, [("00:00:00:00:00:01", 1)])] ∧
    (ls_packet_in ([] : MacToPort) 1 1 OFP_NO_BUFFER
        ⟨"00:00:00:00:00:01", "01:80:c2:00:00:00", ETH_TYPE_IP⟩).2 ≠
      none := by
  decide

/-- Claim C8 (amended): the MAC learning engine ignores — learning nothing
and emitting no forwarding decision — exactly the frames with the LLDP
ethertype or a destination starting with `33:33:`; `01:80:c2:...`
destinations are not filtered. -/
theorem claim_C8 (t : MacToPort) (dpid inPort buffer_id : Nat)
    (eth : EthHeader)
    (hig : eth.ethertype = ETH_TYPE_LLDP ∨
           pyStartsWith eth.dst "33:33:" = true) :
    ls_packet_in t dpid inPort buffer_id eth = (t, none) := by
  unfold ls_packet_in
  rw [if_pos hig]

theorem claim_C8_witness :
    ((⟨"00:00:00:00:00:07", "33:33:00:00:00:01",
        ETH_TYPE_IP⟩ : EthHeader).ethertype = ETH_TYPE_LLDP ∨
      pyStartsWith "33:33:00:00:00:01" "33:33:" = true) ∧
    ls_packet_in [(1, [("00:00:00:00:00:02", 2)])] 1 3 OFP_NO_BUFFER
        ⟨"00:00:00:00:00:07", "33:33:00:00:00:01", ETH_TYPE_IP⟩ =
      ([(1, [("00:00:00:00:00:02", 2)])], none) :=
  ⟨by decide,
   claim_C8 [(1, [("00:00:00:00:00:02", 2)])] 1 3 OFP_NO_BUFFER
     ⟨"00:00:00:00:00:07", "33:33:00:00:00:01", ETH_TYPE_IP⟩ (by decide)⟩

theorem lb_step_vip_nat (s : LBState) (inPort : Nat) (pkt : InPacket)
    (ip4 : IPv4Header) (srv : Server)
    (harp : pkt.arp = none) (hip : pkt.ipv4 = some ip4)
    (hdst : ip4.dst = VIP_IP) (hrr : s.rr_index < s.pool.length)
    (hsrv : s.pool.get? s.rr_index = some srv) :
    lb_packet_in s inPort pkt =
      lbVipNat
        { lbLearnIp s pkt with
            rr_index := ((lbLearnIp s pkt).rr_index + 1) %
              (lbLearnIp s pkt).pool.length }
        inPort (lbLearnIp s pkt).rr_index srv ip4.src := by
  have hrr1 : (lbLearnIp s pkt).rr_index < (lbLearnIp s pkt).pool.length := by
    rw [lbLearnIp_rr_index, lbLearnIp_pool]
    exact hrr
  obtain ⟨srv', hget', hphase⟩ :=
    lbVipPhase_vip (lbLearnIp s pkt) inPort pkt ip4 hip hdst hrr1
  have hsrv' : srv' = srv := by
    rw [lbLearnIp_pool, lbLearnIp_rr_index] at hget'
    exact Option.some.inj (hget'.symm.trans hsrv)
  rw [lb_step_no_arp s inPort pkt harp, hphase, hsrv']

/-! ## Claim theorems: load balancer -/

/-- Claim C1: over any sequence of K VIP-destined IPv4 flow decisions the
rotation pointer advances by exactly one position modulo the pool size N per
decision (and never on ARP-only traffic), so the trace of selected pool
indices is the strict rotation starting from the current pointer, and each
backend index is selected either ⌊K/N⌋ = K/N or ⌈K/N⌉ = (K+N-1)/N times. -/
theorem claim_C1 (s : LBState) (inPort : Nat) (pkts : List InPacket)
    (j : Nat) (pktArp pktVip : InPacket) (ip4 : IPv4Header)
    (hN : 0 < s.pool.length) (hrr : s.rr_index < s.pool.length)
    (hvip : ∀ p ∈ pkts, isVipDecision p = true)
    (hj : j < s.pool.length)
    (_harp1 : pktArp.arp.isSome = true) (harp2 : pktArp.ipv4 = none)
    (hv1 : pktVip.arp = none) (hv2 : pktVip.ipv4 = some ip4)
    (hv3 : ip4.dst = VIP_IP) :
    (lbRun inPort s pkts).2 =
      rrSel s.pool.length s.rr_index pkts.length ∧
    ((lbRun inPort s pkts).2.count j = pkts.length / s.pool.length ∨
      (lbRun inPort s pkts).2.count j =
        (pkts.length + s.pool.length - 1) / s.pool.length) ∧
    (lb_packet_in s inPort pktArp).1.rr_index = s.rr_index ∧
    (lb_packet_in s inPort pktVip).1.rr_index =
      (s.rr_index + 1) % s.pool.length := by
  have htr := lbRun_trace inPort pkts s hN hrr hvip
  refine ⟨htr.1, ?_, ?_, ?_⟩
  · rw [htr.1]
    exact rrSel_count s.pool.length j hN hj pkts.length s.rr_index
  · exact (lb_step_no_ipv4 s inPort pktArp harp2).1
  · exact (lb_step_vip s inPort pktVip ip4 hv1 hv2 hv3 hrr).2.1

theorem claim_C1_witness :
    0 < initLBState.pool.length ∧
    initLBState.rr_index < initLBState.pool.length ∧
    (∀ p ∈ [(⟨"00:00:00:00:02:05", some ⟨"10.0.2.5", "10.0.1.100"⟩,
              none⟩ : InPacket),
            ⟨"00:00:00:00:02:05", some ⟨"10.0.2.5", "10.0.1.100"⟩, none⟩,
            ⟨"00:00:00:00:02:05", some ⟨"10.0.2.5", "10.0.1.100"⟩, none⟩],
      isVipDecision p = true) ∧
    (lbRun 1 initLBState
        [⟨"00:00:00:00:02:05", some ⟨"10.0.2.5", "10.0.1.100"⟩, none⟩,
         ⟨"00:00:00:00:02:05", some ⟨"10.0.2.5", "10.0.1.100"⟩, none⟩,
         ⟨"00:00:00:00:02:05", some ⟨"10.0.2.5", "10.0.1.100"⟩, none⟩]).2 =
      [0, 1, 0] ∧
    ((lbRun 1 initLBState
        [⟨"00:00:00:00:02:05", some ⟨"10.0.2.5", "10.0.1.100"⟩, none⟩,
         ⟨"00:00:00:00:02:05", some ⟨"10.0.2.5", "10.0.1.100"⟩, none⟩,
         ⟨"00:00:00:00:02:05", some ⟨"10.0.2.5", "10.0.1.100"⟩,
          none⟩]).2.count 0 = 3 / initLBState.pool.length ∨
      (lbRun 1 initLBState
        [⟨"00:00:00:00:02:05", some ⟨"10.0.2.5", "10.0.1.100"⟩, none⟩,
         ⟨"00:00:00:00:02:05", some ⟨"10.0.2.5", "10.0.1.100"⟩, none⟩,
         ⟨"00:00:00:00:02:05", some ⟨"10.0.2.5", "10.0.1.100"⟩,
          none⟩]).2.count 0 =
        (3 + initLBState.pool.length - 1) / initLBState.pool.length) ∧
    (lb_packet_in initLBState 1
        ⟨"00:00:00:00:02:09", none,
         some ⟨1, "00:00:00:00:02:09", "10.0.2.9",
               "10.0.1.100"⟩⟩).1.rr_index = 0 ∧
    (lb_packet_in initLBState 1
        ⟨"00:00:00:00:02:05", some ⟨"10.0.2.5", "10.0.1.100"⟩,
         none⟩).1.rr_index = 1 := by
  have h := claim_C1 initLBState 1
    [⟨"00:00:00:00:02:05", some ⟨"10.0.2.5", "10.0.1.100"⟩, none⟩,
     ⟨"00:00:00:00:02:05", some ⟨"10.0.2.5", "10.0.1.100"⟩, none⟩,
     ⟨"00:00:00:00:02:05", some ⟨"10.0.2.5", "10.0.1.100"⟩, none⟩] 0
    ⟨"00:00:00:00:02:09", none,
     some ⟨1, "00:00:00:00:02:09", "10.0.2.9", "10.0.1.100"⟩⟩
    ⟨"00:00:00:00:02:05", some ⟨"10.0.2.5", "10.0.1.100"⟩, none⟩
    ⟨"10.0.2.5", "10.0.1.100"⟩
    (by decide) (by decide) (by decide) (by decide) (by decide) (by decide)
    (by decide) (by decide) (by decide)
  exact ⟨by decide, by decide, by decide, h.1.trans (by decide), h.2.1,
    h.2.2.1, h.2.2.2⟩

/-- Claim C9: the rotation pointer always satisfies
0 ≤ rr_index < pool size: it starts at 0 and each `packet_in` invocation
preserves the bound when the pool is non-empty. -/
theorem claim_C9 (s : LBState) (inPort : Nat) (pkt : InPacket)
    (hN : 0 < s.pool.length) (hrr : s.rr_index < s.pool.length) :
    initLBState.rr_index = 0 ∧ 0 < initLBState.pool.length ∧
    (lb_packet_in s inPort pkt).1.rr_index <
      (lb_packet_in s inPort pkt).1.pool.length := by
  refine ⟨rfl, by decide, ?_⟩
  have h := lb_step_rr_shape s inPort pkt
  rw [h.2]
  rcases h.1 with h' | h'
  · rw [h']
    exact hrr
  · rw [h']
    exact Nat.mod_lt _ hN

theorem claim_C9_witness :
    0 < initLBState.pool.length ∧
    initLBState.rr_index < initLBState.pool.length ∧
    initLBState.rr_index = 0 ∧
    (lb_packet_in initLBState 1
        ⟨"00:00:00:00:02:05", some ⟨"10.0.2.5", "10.0.1.100"⟩,
         none⟩).1.rr_index <
      (lb_packet_in initLBState 1
        ⟨"00:00:00:00:02:05", some ⟨"10.0.2.5", "10.0.1.100"⟩,
         none⟩).1.pool.length := by
  have h := claim_C9 initLBState 1
    ⟨"00:00:00:00:02:05", some ⟨"10.0.2.5", "10.0.1.100"⟩, none⟩
    (by decide) (by decide)
  exact ⟨by decide, by decide, h.1, h.2.2⟩

/-- Claim C10: for a VIP-destined IPv4 packet the pointer is advanced before
MAC resolution is attempted; when resolution fails the packet is flooded with
no rules installed, the failed decision still consumes the round-robin slot,
and the next VIP-destined decision selects the following backend. -/
theorem claim_C10 (s : LBState) (inPort : Nat) (pkt pkt2 : InPacket)
    (ip4 ip42 : IPv4Header) (srv : Server)
    (harp : pkt.arp = none) (hip : pkt.ipv4 = some ip4)
    (hdst : ip4.dst = VIP_IP) (hrr : s.rr_index < s.pool.length)
    (hsrv : s.pool.get? s.rr_index = some srv)
    (hres : lbResolvedMac (lbLearnIp s pkt).ip2mac srv = none)
    (harp2 : pkt2.arp = none) (hip2 : pkt2.ipv4 = some ip42)
    (hdst2 : ip42.dst = VIP_IP) :
    (lb_packet_in s inPort pkt).2.flowMods = [] ∧
    (lb_packet_in s inPort pkt).2.pktOuts =
      [⟨inPort, [.output OFPP_FLOOD], .original⟩] ∧
    (lb_packet_in s inPort pkt).2.chosen = some s.rr_index ∧
    (lb_packet_in s inPort pkt).1.rr_index =
      (s.rr_index + 1) % s.pool.length ∧
    (lb_packet_in (lb_packet_in s inPort pkt).1 inPort pkt2).2.chosen =
      some ((s.rr_index + 1) % s.pool.length) := by
  have hstep := lb_step_vip s inPort pkt ip4 harp hip hdst hrr
  have hnat := lb_step_vip_nat s inPort pkt ip4 srv harp hip hdst hrr hsrv
  have hout := lbVipNat_unresolved
    { lbLearnIp s pkt with
        rr_index := ((lbLearnIp s pkt).rr_index + 1) %
          (lbLearnIp s pkt).pool.length }
    inPort (lbLearnIp s pkt).rr_index srv ip4.src hres
  have hrr2 : (lb_packet_in s inPort pkt).1.rr_index <
      (lb_packet_in s inPort pkt).1.pool.length := by
    rw [hstep.2.1, hstep.2.2]
    exact Nat.mod_lt _ (Nat.pos_of_ne_zero fun h0 => by omega)
  have hstep2 := lb_step_vip (lb_packet_in s inPort pkt).1 inPort pkt2 ip42
    harp2 hip2 hdst2 hrr2
  refine ⟨?_, ?_, hstep.1, hstep.2.1, ?_⟩
  · rw [hnat, hout]
  · rw [hnat, hout]
  · rw [hstep2.1, hstep.2.1]

theorem claim_C10_witness :
    initLBState.pool.get? initLBState.rr_index =
      some { ip := "10.0ping1.1", mac := none } ∧
    lbResolvedMac
      (lbLearnIp initLBState
        ⟨"00:00:00:00:02:05", some ⟨"10.0.2.5", "10.0.1.100"⟩,
         none⟩).ip2mac { ip := "10.0ping1.1", mac := none } = none ∧
    (lb_packet_in initLBState 1
        ⟨"00:00:00:00:02:05", some ⟨"10.0.2.5", "10.0.1.100"⟩,
         none⟩).2.flowMods = [] ∧
    (lb_packet_in initLBState 1
        ⟨"00:00:00:00:02:05", some ⟨"10.0.2.5", "10.0.1.100"⟩,
         none⟩).2.pktOuts =
      [⟨1, [.output OFPP_FLOOD], .original⟩] ∧
    (lb_packet_in initLBState 1
        ⟨"00:00:00:00:02:05", some ⟨"10.0.2.5", "10.0.1.100"⟩,
         none⟩).2.chosen = some 0 ∧
    (lb_packet_in (lb_packet_in initLBState 1
        ⟨"00:00:00:00:02:05", some ⟨"10.0.2.5", "10.0.1.100"⟩, none⟩).1 1
        ⟨"00:00:00:00:02:05", some ⟨"10.0.2.5", "10.0.1.100"⟩,
         none⟩).2.chosen = some 1 := by
  have h := claim_C10 initLBState 1
    ⟨"00:00:00:00:02:05", some ⟨"10.0.2.5", "10.0.1.100"⟩, none⟩
    ⟨"00:00:00:00:02:05", some ⟨"10.0.2.5", "10.0.1.100"⟩, none⟩
    ⟨"10.0.2.5", "10.0.1.100"⟩ ⟨"10.0.2.5", "10.0.1.100"⟩
    { ip := "10.0ping1.1", mac := none }
    (by decide) (by decide) (by decide) (by decide) (by decide) (by decide)
    (by decide) (by decide) (by decide)
  exact ⟨by decide, by decide, h.1, h.2.1, h.2.2.1, h.2.2.2.2⟩

/-- Claim C2: for every VIP-destined IPv4 packet whose selected backend's MAC
resolves, exactly two flow rules are installed, both priority 10 with idle
timeout 30: a forward rule matching destination = VIP rewriting destination
IP/MAC to the backend and outputting toward it, and a reverse rule matching
source = backend, destination = client rewriting source IP/MAC back to the
VIP identity and outputting to the ingress port; the in-flight packet is then
re-emitted with the same rewrite via a one-shot packet-out. -/
theorem claim_C2 (s : LBState) (inPort : Nat) (pkt : InPacket)
    (ip4 : IPv4Header) (srv : Server) (smac : String)
    (harp : pkt.arp = none) (hip : pkt.ipv4 = some ip4)
    (hdst : ip4.dst = VIP_IP) (hrr : s.rr_index < s.pool.length)
    (hsrv : s.pool.get? s.rr_index = some srv)
    (hres : lbResolvedMac (lbLearnIp s pkt).ip2mac srv = some smac) :
    (lb_packet_in s inPort pkt).2.flowMods =
      [{ priority := 10,
         flowMatch := { eth_type := some ETH_TYPE_IP,
                        ipv4_dst := some VIP_IP },
         actions := [.setIpv4Dst srv.ip, .setEthDst smac,
                     .output OFPP_NORMAL],
         idle_timeout := 30, hard_timeout := 0 },
       { priority := 10,
         flowMatch := { eth_type := some ETH_TYPE_IP,
                        ipv4_src := some srv.ip,
                        ipv4_dst := some ip4.src },
         actions := [.setIpv4Src VIP_IP, .setEthSrc VIP_MAC,
                     .output inPort],
         idle_timeout := 30, hard_timeout := 0 }] ∧
    (lb_packet_in s inPort pkt).2.pktOuts =
      [⟨inPort, [.setIpv4Dst srv.ip, .setEthDst smac, .output OFPP_FLOOD],
        .original⟩] := by
  have hnat := lb_step_vip_nat s inPort pkt ip4 srv harp hip hdst hrr hsrv
  have hout := lbVipNat_resolved
    { lbLearnIp s pkt with
        rr_index := ((lbLearnIp s pkt).rr_index + 1) %
          (lbLearnIp s pkt).pool.length }
    inPort (lbLearnIp s pkt).rr_index srv ip4.src smac hres
  rw [hnat, hout]
  exact ⟨rfl, rfl⟩

theorem claim_C2_witness :
    ({ rr_index := 1, ip2mac := [("10.0.1.2", "00:00:00:00:01:02")],
       pool := initServerPool } : LBState).rr_index <
      ({ rr_index := 1, ip2mac := [("10.0.1.2", "00:00:00:00:01:02")],
         pool := initServerPool } : LBState).pool.length ∧
    lbResolvedMac
      (lbLearnIp
        { rr_index := 1, ip2mac := [("10.0.1.2", "00:00:00:00:01:02")],
          pool := initServerPool }
        ⟨"00:00:00:00:02:05", some ⟨"10.0.2.5", "10.0.1.100"⟩,
         none⟩).ip2mac { ip := "10.0.1.2", mac := none } =
      some "00:00:00:00:01:02" ∧
    (lb_packet_in
        { rr_index := 1, ip2mac := [("10.0.1.2", "00:00:00:00:01:02")],
          pool := initServerPool } 7
        ⟨"00:00:00:00:02:05", some ⟨"10.0.2.5", "10.0.1.100"⟩,
         none⟩).2.flowMods =
      [{ priority := 10,
         flowMatch := { eth_type := some ETH_TYPE_IP,
                        ipv4_dst := some VIP_IP },
         actions := [.setIpv4Dst "10.0.1.2", .setEthDst "00:00:00:00:01:02",
                     .output OFPP_NORMAL],
         idle_timeout := 30, hard_timeout := 0 },
       { priority := 10,
         flowMatch := { eth_type := some ETH_TYPE_IP,
                        ipv4_src := some "10.0.1.2",
                        ipv4_dst := some "10.0.2.5" },
         actions := [.setIpv4Src VIP_IP, .setEthSrc VIP_MAC, .output 7],
         idle_timeout := 30, hard_timeout := 0 }] ∧
    (lb_packet_in
        { rr_index := 1, ip2mac := [("10.0.1.2", "00:00:00:00:01:02")],
          pool := initServerPool } 7
        ⟨"00:00:00:00:02:05", some ⟨"10.0.2.5", "10.0.1.100"⟩,
         none⟩).2.pktOuts =
      [⟨7, [.setIpv4Dst "10.0.1.2", .setEthDst "00:00:00:00:01:02",
            .output OFPP_FLOOD], .original⟩] := by
  have h := claim_C2
    { rr_index := 1, ip2mac := [("10.0.1.2", "00:00:00:00:01:02")],
      pool := initServerPool } 7
    ⟨"00:00:00:00:02:05", some ⟨"10.0.2.5", "10.0.1.100"⟩, none⟩
    ⟨"10.0.2.5", "10.0.1.100"⟩ { ip := "10.0.1.2", mac := none }
    "00:00:00:00:01:02"
    (by decide) (by decide) (by decide) (by decide) (by decide) (by decide)
  exact ⟨by decide, by decide, h.1, h.2⟩

/-! ## Telemetry lemmas and claims -/

theorem port_stats_reply_single (now : ℚ) (prev : List (Nat × PrevSample))
    (stat : PortStat) (hport : stat.port_no < OFPP_MAX) :
    (port_stats_reply now prev [stat]).2 =
      [{ port := stat.port_no, rx_bytes := stat.rx_bytes,
         tx_bytes := stat.tx_bytes, rx_pkts := stat.rx_packets,
         tx_pkts := stat.tx_packets,
         rx_bps := (telemRates now prev stat).1,
         tx_bps := (telemRates now prev stat).2.1,
         rx_pps := (telemRates now prev stat).2.2.1,
         tx_pps := (telemRates now prev stat).2.2.2 }] := by
  have hlt : ¬ stat.port_no ≥ OFPP_MAX := Nat.not_le.2 hport
  unfold port_stats_reply
  rw [if_neg hlt]
  rfl

/-- Claim C3 (amended): with a previous sample (b0 at t0) for the port, the
row's rates are 8·Δbytes / max(ε, t1−t0) and Δpackets / max(ε, t1−t0), which
for t1−t0 ≥ ε are exactly 8·Δbytes/(t1−t0) and Δpackets/(t1−t0); a lone
first sample still yields a row, with all four rate fields zero, rather than
no record. -/
theorem claim_C3 (now : ℚ) (prev : List (Nat × PrevSample)) (stat : PortStat)
    (hport : stat.port_no < OFPP_MAX) :
    (∀ p0, dictGet stat.port_no prev = some p0 →
      (port_stats_reply now prev [stat]).2 =
        [{ port := stat.port_no, rx_bytes := stat.rx_bytes,
           tx_bytes := stat.tx_bytes, rx_pkts := stat.rx_packets,
           tx_pkts := stat.tx_packets,
           rx_bps := 8 * ((stat.rx_bytes - p0.rx_bytes : Int) : ℚ) /
             max telemEps (now - p0.ts),
           tx_bps := 8 * ((stat.tx_bytes - p0.tx_bytes : Int) : ℚ) /
             max telemEps (now - p0.ts),
           rx_pps := ((stat.rx_packets - p0.rx_pkts : Int) : ℚ) /
             max telemEps (now - p0.ts),
           tx_pps := ((stat.tx_packets - p0.tx_pkts : Int) : ℚ) /
             max telemEps (now - p0.ts) }] ∧
      (telemEps ≤ now - p0.ts →
        8 * ((stat.rx_bytes - p0.rx_bytes : Int) : ℚ) /
            max telemEps (now - p0.ts) =
          8 * ((stat.rx_bytes - p0.rx_bytes : Int) : ℚ) / (now - p0.ts) ∧
        ((stat.rx_packets - p0.rx_pkts : Int) : ℚ) /
            max telemEps (now - p0.ts) =
          ((stat.rx_packets - p0.rx_pkts : Int) : ℚ) / (now - p0.ts))) ∧
    (dictGet stat.port_no prev = none →
      (port_stats_reply now prev [stat]).2 =
        [{ port := stat.port_no, rx_bytes := stat.rx_bytes,
           tx_bytes := stat.tx_bytes, rx_pkts := stat.rx_packets,
           tx_pkts := stat.tx_packets,
           rx_bps := 0, tx_bps := 0, rx_pps := 0, tx_pps := 0 }]) := by
  constructor
  · intro p0 hp0
    constructor
    · rw [port_stats_reply_single now prev stat hport]
      unfold telemRates
      rw [hp0]
    · intro hdt
      rw [max_eq_right hdt]
      exact ⟨rfl, rfl⟩
  · intro hnone
    rw [port_stats_reply_single now prev stat hport]
    unfold telemRates
    rw [hnone]

theorem claim_C3_witness :
    (1 : Nat) < OFPP_MAX ∧
    dictGet (1 : Nat) [(1, (⟨98, 0, 0, 0, 0⟩ : PrevSample))] =
      some ⟨98, 0, 0, 0, 0⟩ ∧
    (port_stats_reply 100 [(1, ⟨98, 0, 0, 0, 0⟩)]
        [⟨1, 2000, 0, 10, 0⟩]).2 =
      [{ port := 1, rx_bytes := 2000, tx_bytes := 0, rx_pkts := 10,
         tx_pkts := 0, rx_bps := 8000, tx_bps := 0, rx_pps := 5,
         tx_pps := 0 }] := by
  have h := claim_C3 100 [(1, ⟨98, 0, 0, 0, 0⟩)] ⟨1, 2000, 0, 10, 0⟩
    (by decide)
  have h1 := (h.1 ⟨98, 0, 0, 0, 0⟩ (by decide)).1
  refine ⟨by decide, by decide, ?_⟩
  rw [h1]
  have hmax : max telemEps (2 : ℚ) = 2 :=
    max_eq_right (by norm_num [telemEps])
  norm_num [hmax]

/-- Claim C3 (as stated) is false in its "no rate record" part: a lone first
sample for a port (no predecessor in `prev_port`) still appends a CSV
record — its four rate fields are zero — rather than producing no record. -/
theorem claim_C3_counterexample :
    (port_stats_reply 100 [] [⟨1, 1000, 2000, 10, 20⟩]).2 =
      [{ port := 1, rx_bytes := 1000, tx_bytes := 2000, rx_pkts := 10,
         tx_pkts := 20, rx_bps := 0, tx_bps := 0, rx_pps := 0,
         tx_pps := 0 }] ∧
    (port_stats_reply 100 [] [⟨1, 1000, 2000, 10, 20⟩]).2 ≠ [] := by
  exact ⟨by decide, by decide⟩

/-! ## Firewall claim -/

/-- Claim C4: at switch-connect time every rule the parser accepts is
installed as a flow rule with priority 100 and a CLEAR_ACTIONS instruction
with an empty action list (an explicit drop); a rule whose match construction
fails is logged and skipped, and does not prevent installation of the
remaining rules — the installed list is exactly the accepted rules, in
order. -/
theorem claim_C4 (rules : List FWRule) :
    (fw_switch_features rules).1 =
      (rules.filter (fun r => r.valid)).map
        (fun r => { priority := 100, fwMatch := r.fields,
                    instructions := [.clearActions []] }) ∧
    (fw_switch_features rules).2 = rules.filter (fun r => !r.valid) := by
  induction rules with
  | nil => exact ⟨rfl, rfl⟩
  | cons r rest ih =>
    cases hv : r.valid <;>
      simp [fw_switch_features, List.filter_cons, hv, ih.1, ih.2]

/-! ## Disconnect claims -/

/-- Claim C5 (amended): a disconnect event removes the telemetry session and
purges that switch's telemetry baseline, but the learning switch registers no
disconnect handler, so the MAC learning table survives the disconnect
unchanged (it is NOT purged). -/
theorem claim_C5 (cs : ControllerState) (dp : Datapath) :
    dictGet dp.id (handler_dp cs dp false).datapaths = none ∧
    dictGet dp.id (handler_dp cs dp false).prev_port = none ∧
    (handler_dp cs dp false).mac_to_port = cs.mac_to_port := by
  unfold handler_dp
  simp [dictGet_pop_self]

/-- Claim C5 (as stated) is false: after switch dpid 1 disconnects, its
session and telemetry baseline are gone but its MAC table entries survive,
contradicting "the MAC learning table is purged / no per-switch state
survives". -/
theorem claim_C5_counterexample :
    dictGet 1 (handler_dp
        { datapaths := [(1, ⟨1⟩)],
          prev_port := [(1, [(1, ⟨0, 0, 0, 0, 0⟩)])],
          mac_to_port := [(1, [("00:00:00:00:00:01", 1)])] }
        ⟨1⟩ false).datapaths = none ∧
    dictGet 1 (handler_dp
        { datapaths := [(1, ⟨1⟩)],
          prev_port := [(1, [(1, ⟨0, 0, 0, 0, 0⟩)])],
          mac_to_port := [(1, [("00:00:00:00:00:01", 1)])] }
        ⟨1⟩ false).prev_port = none ∧
    dictGet 1 (handler_dp
        { datapaths := [(1, ⟨1⟩)],
          prev_port := [(1, [(1, ⟨0, 0, 0, 0, 0⟩)])],
          mac_to_port := [(1, [("00:00:00:00:00:01", 1)])] }
        ⟨1⟩ false).mac_to_port = some [("00:00:00:00:00:01", 1)] := by
  exact ⟨by decide, by decide, by decide⟩
